import Mathlib

/-!
Shallow embedding of the ReadingListAutoSummary backend core
(`src/backend/background.ts`, `src/backend/content_extractor.ts`,
`src/backend/summarizer.ts`) and proofs about it.

JavaScript numbers are modelled as rationals (`ℚ`); timestamps are
milliseconds since the epoch.  `Date.now()` is impure, so every predicate
that reads the clock takes `now` as an explicit argument.  Optional string
fields of TypeScript interfaces are modelled as `Option String`; JS
truthiness of such a field (both `undefined` and `""` are falsy) is
modelled by `strTruthy`.
-/

namespace RLAS

/-- One Chrome reading-list entry (`chrome.readingList.ReadingListEntry`). -/
structure ReadingListEntry where
  url : String
  title : String
  hasBeenRead : Bool
  creationTime : ℚ
  lastUpdateTime : ℚ
deriving DecidableEq

/-- JS truthiness of an optional string field: `undefined` and `""` are
falsy, every other string is truthy. -/
def strTruthy (s : Option String) : Bool :=
  s.getD "" != ""

/-- From `src/backend/background.ts` (`shouldMarkAsRead`): an unread entry
becomes eligible for the read transition once
`(now - creationTime) / (1000*60*60*24)` days have elapsed. -/
def shouldMarkAsRead (now : ℚ) (entry : ReadingListEntry)
    (daysUntilRead : ℚ) : Bool :=
  if entry.hasBeenRead then
    false
  else
    let daysSinceCreation := (now - entry.creationTime) / (1000 * 60 * 60 * 24)
    decide (daysSinceCreation ≥ daysUntilRead)

/-- From `src/backend/background.ts` (`shouldDelete`): a read entry becomes
eligible for deletion once `(now - lastUpdateTime) / (1000*60*60*24)` days
have elapsed.  Note: the source applies the threshold comparison
unconditionally; there is no special case for any sentinel value. -/
def shouldDelete (now : ℚ) (entry : ReadingListEntry)
    (daysUntilDelete : ℚ) : Bool :=
  if !entry.hasBeenRead then
    false
  else
    let daysSinceUpdate := (now - entry.lastUpdateTime) / (1000 * 60 * 60 * 24)
    decide (daysSinceUpdate ≥ daysUntilDelete)

/-- Model of the JS `String.prototype.split` with a one-character
separator, by structural recursion over the character list (so that the
kernel can evaluate it). -/
def jsSplitAux (sep : Char) : List Char → List Char → List String
  | [], acc => [String.mk acc.reverse]
  | c :: rest, acc =>
    if c = sep then String.mk acc.reverse :: jsSplitAux sep rest []
    else jsSplitAux sep rest (c :: acc)

/-- `s.split(sep)` for a one-character separator. -/
def jsSplit (sep : Char) (s : String) : List String :=
  jsSplitAux sep s.data []

/-- Model of the JS `String.prototype.trim`: strip whitespace from both
ends of the string. -/
def jsTrim (s : String) : String :=
  String.mk (((s.data.dropWhile Char.isWhitespace).reverse.dropWhile
    Char.isWhitespace).reverse)

/-- From `src/backend/summarizer.ts` (`formatSlackMessage`): the summary is
split on newlines, blank lines are dropped, and the first three remaining
lines become the three sections of the message. -/
def formatSlackMessage (title url modelName summary : String) : String :=
  let lines := (jsSplit '\n' summary).filter (fun line => decide (jsTrim line ≠ ""))
  let section1 := (lines.get? 0).getD ""
  let section2 := (lines.get? 1).getD ""
  let section3 := (lines.get? 2).getD ""
  title ++ "\n" ++ url ++ "\n\n" ++ modelName ++ "による要約\n\n" ++
    section1 ++ "\n\n" ++ section2 ++ "\n\n" ++ section3

/-- From `src/backend/summarizer.ts` (`formatSlackErrorMessage`): failure
message with the same header and two trailing blank lines. -/
def formatSlackErrorMessage (title url modelName error : String) : String :=
  title ++ "\n" ++ url ++ "\n\n" ++ modelName ++ "による要約\n\n" ++
    "要約生成に失敗しました: " ++ error ++ "\n\n\n"

/-! ## The generic retry executor

`retryWithExponentialBackoff` in `src/backend/content_extractor.ts` runs an
asynchronous operation up to `maxRetries` times.  The operation is modelled
as a function from the (1-based) attempt number to an `Except` outcome; the
returned record additionally records the number of invocations made and the
list of backoff delays slept, so that the executor's observable behaviour
can be stated.  The thrown value has type `Option ε` because the source
initialises `lastError` to `null`: `none` models throwing `null` (only
reachable when `maxRetries = 0`). -/

/-- Observable outcome of one run of the retry executor. -/
structure RetryOutcome (ε α : Type) where
  result : Except (Option ε) α
  calls : Nat
  delays : List Nat

/-- The loop body of `retryWithExponentialBackoff`, recursing on the number
of remaining attempts; `attempt` is the 1-based number of the current
attempt and `last` the last recorded error. -/
def retryGo (op : Nat → Except ε α) (baseDelay : Nat) :
    Nat → Nat → Option ε → RetryOutcome ε α
  | attempt, 0, last => ⟨Except.error last, attempt - 1, []⟩
  | attempt, r + 1, _ =>
    match op attempt with
    | Except.ok a => ⟨Except.ok a, attempt, []⟩
    | Except.error e =>
      if r = 0 then ⟨Except.error (some e), attempt, []⟩
      else
        let d := baseDelay * 2 ^ (attempt - 1)
        let o := retryGo op baseDelay (attempt + 1) r (some e)
        ⟨o.result, o.calls, d :: o.delays⟩

/-- From `src/backend/content_extractor.ts`
(`retryWithExponentialBackoff`): run `op` up to `maxRetries` times,
sleeping `baseDelay * 2 ^ (attempt - 1)` between failures, rethrowing the
last error after the final failure.  The source's defaults are
`maxRetries = 3`, `baseDelay = 1000`. -/
def retryWithExponentialBackoff (op : Nat → Except ε α)
    (maxRetries baseDelay : Nat) : RetryOutcome ε α :=
  retryGo op baseDelay 1 maxRetries none

/-! ## The summarizer -/

/-- Result record of `summarizeContent` (`SummarizeResult` in
`src/backend/summarizer.ts`); all fields except `success` are optional in
the source interface. -/
structure SummarizeResult where
  success : Bool
  summary : Option String
  error : Option String
  retryCount : Option Nat
deriving DecidableEq

/-- One attempt of the summarizer's `try` block, given the completion
API's outcome for that attempt: an exception (`Except.error` with the
error's message) or a completion content
(`response.choices[0]?.message?.content`, possibly absent).  The content is
trimmed and an empty result is turned into the thrown error
`"要約結果が空です"`, which the surrounding `catch` then handles like any
API exception. -/
def summarizeAttempt (r : Except String (Option String)) :
    Except String String :=
  match r with
  | Except.error m => Except.error m
  | Except.ok c =>
    let summary := jsTrim (c.getD "")
    if summary = "" then Except.error "要約結果が空です"
    else Except.ok summary

/-- The retry loop of `summarizeContent`, recursing on the number of
remaining attempts; `attempt` is the 1-based attempt number and the
source's `maxRetries` is the constant 3.  The fuel-exhausted branch models
the source's unreachable fallback return after the loop. -/
def summarizeGo (api : Nat → Except String (Option String)) :
    Nat → Nat → SummarizeResult
  | _, 0 => ⟨false, none, some "不明なエラー", some 3⟩
  | attempt, r + 1 =>
    match summarizeAttempt (api attempt) with
    | Except.ok s => ⟨true, some s, none, some attempt⟩
    | Except.error m =>
      if attempt < 3 then summarizeGo api (attempt + 1) r
      else ⟨false, none, some m, some attempt⟩

/-- From `src/backend/summarizer.ts` (`summarizeContent`): run up to 3
attempts against the completion API (modelled by `api`, indexed by the
attempt number), returning a structured success or failure, never
throwing. -/
def summarizeContent (api : Nat → Except String (Option String)) :
    SummarizeResult :=
  summarizeGo api 1 3

/-! ## The content extractor (provider revision of
`src/backend/content_extractor.ts`)

The extractor calls external platform primitives that are modelled as
components of an `ExtractEnv`: the WHATWG `URL` constructor
(`resolveUrl p base` models `new URL(p, base).toString()`, `hostname u`
models `new URL(u).hostname`; an `Except.error` models the thrown
`TypeError` with its message) and `fetch` (one `FetchOutcome` per attempt,
with the parsed JSON body folded into a successful response). -/

/-- From `src/common/constants.ts`. -/
def DEFAULT_TAVILY_BASE_URL : String := "https://api.tavily.com"

/-- `FirecrawlV2Metadata` (only the field the extractor reads). -/
structure FirecrawlV2Metadata where
  title : Option String

/-- `FirecrawlV2Data`. -/
structure FirecrawlV2Data where
  markdown : Option String
  metadata : Option FirecrawlV2Metadata

/-- `FirecrawlV2Response` (only the field the extractor reads). -/
structure FirecrawlV2Response where
  data : Option FirecrawlV2Data

/-- `TavilyExtractResult` (the fields the extractor reads). -/
structure TavilyExtractResult where
  raw_content : Option String
  title : Option String

/-- One element of `failed_results` in a Tavily response. -/
structure TavilyFailedResult where
  url : String
  error : String

/-- `TavilyExtractResponse`. -/
structure TavilyExtractResponse where
  results : Option (List TavilyExtractResult)
  failed_results : Option (List TavilyFailedResult)

/-- `FirecrawlConfig`. -/
structure FirecrawlConfig where
  apiKey : String
  baseUrl : String

/-- `TavilyConfig`. -/
structure TavilyConfig where
  apiKey : String

/-- `ExtractContentConfig`: a tagged union selecting the provider. -/
inductive ExtractContentConfig where
  | firecrawl (config : FirecrawlConfig)
  | tavily (config : TavilyConfig)

/-- Outcome of one `fetch` of a provider endpoint: a network-level
rejection, or a response with its `ok` flag, status, status text and
parsed JSON body. -/
inductive FetchOutcome (β : Type) where
  | reject (msg : String)
  | response (ok : Bool) (status : Nat) (statusText : String) (body : β)

/-- Environment of external platform primitives consumed by the
extractor; fetch outcomes are indexed by the 1-based attempt number. -/
structure ExtractEnv where
  resolveUrl : String → String → Except String String
  hostname : String → Except String String
  firecrawlFetch : Nat → FetchOutcome FirecrawlV2Response
  tavilyFetch : Nat → FetchOutcome TavilyExtractResponse

/-- A successful provider extraction: the markdown body and a title. -/
structure ExtractedDoc where
  content : String
  title : String

/-- From `src/backend/content_extractor.ts` (`extractWithFirecrawl`),
as the body of the retried operation for attempt `k`: build the endpoint
URL from the configured base URL, POST to it, fail on a non-ok response
embedding status and status text, fail on an empty markdown body, and fall
back to the page URL's hostname when the metadata carries no title. -/
def extractWithFirecrawl (env : ExtractEnv) (url : String)
    (config : FirecrawlConfig) (k : Nat) : Except String ExtractedDoc :=
  match env.resolveUrl "/v2/scrape" config.baseUrl with
  | Except.error m => Except.error m
  | Except.ok _endpoint =>
    match env.firecrawlFetch k with
    | FetchOutcome.reject m => Except.error m
    | FetchOutcome.response ok status statusText body =>
      if !ok then
        Except.error ("Firecrawl API error: " ++ toString status ++ " " ++ statusText)
      else
        let markdown := (body.data.bind FirecrawlV2Data.markdown).getD ""
        if markdown = "" then Except.error "抽出された本文が空です"
        else
          let mtitle := (body.data.bind FirecrawlV2Data.metadata).bind
            FirecrawlV2Metadata.title
          if strTruthy mtitle then Except.ok ⟨markdown, mtitle.getD ""⟩
          else
            match env.hostname url with
            | Except.ok h => Except.ok ⟨markdown, h⟩
            | Except.error m => Except.error m

/-- From `src/backend/content_extractor.ts` (`extractWithTavily`), as the
body of the retried operation for attempt `k`. -/
def extractWithTavily (env : ExtractEnv) (url : String)
    (_config : TavilyConfig) (k : Nat) : Except String ExtractedDoc :=
  match env.resolveUrl "/extract" DEFAULT_TAVILY_BASE_URL with
  | Except.error m => Except.error m
  | Except.ok _endpoint =>
    match env.tavilyFetch k with
    | FetchOutcome.reject m => Except.error m
    | FetchOutcome.response ok status statusText body =>
      if !ok then
        Except.error ("Tavily API error: " ++ toString status ++ " " ++ statusText)
      else
        let result0 := (body.results.getD []).head?
        let raw := (result0.bind TavilyExtractResult.raw_content).getD ""
        if raw = "" then
          let failedMessage := ((body.failed_results.getD []).head?).map
            TavilyFailedResult.error
          Except.error (if strTruthy failedMessage then failedMessage.getD ""
            else "抽出された本文が空です")
        else
          let t := result0.bind TavilyExtractResult.title
          if strTruthy t then Except.ok ⟨raw, t.getD ""⟩
          else
            match env.hostname url with
            | Except.ok h => Except.ok ⟨raw, h⟩
            | Except.error m => Except.error m

/-- The operation handed to the retry executor by `extractContent`:
dispatch on the configured provider. -/
def extractAttempt (env : ExtractEnv) (url : String)
    (config : ExtractContentConfig) (k : Nat) : Except String ExtractedDoc :=
  match config with
  | ExtractContentConfig.firecrawl fc => extractWithFirecrawl env url fc k
  | ExtractContentConfig.tavily tv => extractWithTavily env url tv k

/-- `ExtractContentResult` of the provider revision: a discriminated
union. -/
inductive ExtractContentResult where
  | success (content : String) (title : String)
  | failure (error : String)
deriving DecidableEq

/-- From `src/backend/content_extractor.ts` (`extractContent`): wrap the
provider call in the retry executor with the default policy (3 attempts,
1000 ms base delay) and funnel any final error into the failure variant
(`String(null)` is `"null"` for the unreachable null-error case). -/
def extractContent (env : ExtractEnv) (url : String)
    (config : ExtractContentConfig) : ExtractContentResult :=
  match (retryWithExponentialBackoff (fun k => extractAttempt env url config k)
      3 1000).result with
  | Except.ok d => ExtractContentResult.success d.content d.title
  | Except.error o => ExtractContentResult.failure (o.getD "null")

/-! ## The background reconciliation pass (`src/backend/background.ts`)

The pass mutates external state only through `chrome.readingList` and the
Slack webhook; those effects are recorded as a list of `BgEvent`s.  Each
helper returns the events it performed together with its normal/thrown
outcome, so that an effect performed before a later throw is still
recorded.  The environment fixes the outcome of every external call; the
revision of `extractContent` consumed by this `background.ts` revision is
the SDK-based one whose result interface has optional fields
(`LegacyExtractResult`). -/

/-- `Settings` as consumed by this revision of `background.ts`
(`src/common/chrome_storage.ts`). -/
structure Settings where
  daysUntilRead : ℚ
  daysUntilDelete : ℚ
  openaiEndpoint : Option String
  openaiApiKey : Option String
  openaiModel : Option String
  slackWebhookUrl : Option String
  firecrawlApiKey : Option String
  systemPrompt : Option String

/-- The `ExtractContentResult` interface of the SDK revision of
`content_extractor.ts` (optional fields), consumed by `background.ts`. -/
structure LegacyExtractResult where
  success : Bool
  content : Option String
  error : Option String

/-- An observable external effect of a reconciliation pass. -/
inductive BgEvent where
  | markedRead (url : String)
  | removed (url : String)
  | posted (webhookUrl : String) (message : String)
deriving DecidableEq

/-- Environment fixing the outcome of every external call a pass makes;
`extract` and `summarize` are keyed by the entry's URL (each entry is
extracted and summarized at most once per pass), `post` by webhook URL and
message. -/
structure PassEnv where
  now : ℚ
  settings : Settings
  query : Except String (List ReadingListEntry)
  updateEntry : String → Except String Unit
  removeEntry : String → Except String Unit
  extract : String → LegacyExtractResult
  summarize : String → SummarizeResult
  post : String → String → Except String Unit

/-- Model of a JS template-literal interpolation of a
`string | undefined` value: `undefined` renders as `"undefined"`. -/
def jsStr (o : Option String) : String :=
  o.getD "undefined"

/-- From `src/backend/background.ts` (`postToSlack`): POST the message,
throwing on a non-ok response or network failure (the outcome is fixed by
`env.post`); the successful post is the recorded event. -/
def postToSlack (env : PassEnv) (webhookUrl message : String) :
    List BgEvent × Except String Unit :=
  match env.post webhookUrl message with
  | Except.ok _ => ([BgEvent.posted webhookUrl message], Except.ok ())
  | Except.error e => ([], Except.error e)

/-- From `src/backend/background.ts` (`notifyExtractionError`): skip
silently unless both the webhook URL and the model name are configured. -/
def notifyExtractionError (env : PassEnv) (entry : ReadingListEntry)
    (error : Option String) : List BgEvent × Except String Unit :=
  if !(strTruthy env.settings.slackWebhookUrl) ||
      !(strTruthy env.settings.openaiModel) then
    ([], Except.ok ())
  else
    let errorMessage := formatSlackErrorMessage entry.title entry.url
      (env.settings.openaiModel.getD "") ("本文抽出失敗: " ++ jsStr error)
    postToSlack env (env.settings.slackWebhookUrl.getD "") errorMessage

/-- From `src/backend/background.ts` (`processSummarization`): skip unless
the three OpenAI settings and the webhook URL are all configured; then
summarize and post either the success message or the error message. -/
def processSummarization (env : PassEnv) (entry : ReadingListEntry)
    (_content : String) : List BgEvent × Except String Unit :=
  if !(strTruthy env.settings.openaiEndpoint) ||
      !(strTruthy env.settings.openaiApiKey) ||
      !(strTruthy env.settings.openaiModel) ||
      !(strTruthy env.settings.slackWebhookUrl) then
    ([], Except.ok ())
  else
    let summarizeResult := env.summarize entry.url
    let slackMessage :=
      if summarizeResult.success && strTruthy summarizeResult.summary then
        formatSlackMessage entry.title entry.url
          (env.settings.openaiModel.getD "") (summarizeResult.summary.getD "")
      else
        formatSlackErrorMessage entry.title entry.url
          (env.settings.openaiModel.getD "")
          (if strTruthy summarizeResult.error then summarizeResult.error.getD ""
            else "不明なエラー")
    postToSlack env (env.settings.slackWebhookUrl.getD "") slackMessage

/-- From `src/backend/background.ts` (`processContentExtraction`): skip
when no Firecrawl API key is configured; on extraction failure or empty
content notify the extraction error; otherwise summarize. -/
def processContentExtraction (env : PassEnv) (entry : ReadingListEntry) :
    List BgEvent × Except String Unit :=
  if !(strTruthy env.settings.firecrawlApiKey) then
    ([], Except.ok ())
  else
    let extractResult := env.extract entry.url
    if !extractResult.success || !(strTruthy extractResult.content) then
      notifyExtractionError env entry extractResult.error
    else
      processSummarization env entry (extractResult.content.getD "")

/-- From `src/backend/background.ts` (`markAsReadAndNotify`): mark the
entry read first; only then extract, summarize and notify.  The `catch`
in the source logs and rethrows, so a failure outcome propagates — but the
mark-read mutation it happened after is still recorded. -/
def markAsReadAndNotify (env : PassEnv) (entry : ReadingListEntry) :
    List BgEvent × Except String Unit :=
  match env.updateEntry entry.url with
  | Except.error e => ([], Except.error e)
  | Except.ok _ =>
    let o := processContentExtraction env entry
    (BgEvent.markedRead entry.url :: o.1, o.2)

/-- From `src/backend/background.ts` (`deleteEntry`): remove the entry,
rethrowing any failure. -/
def deleteEntry (env : PassEnv) (entry : ReadingListEntry) :
    List BgEvent × Except String Unit :=
  match env.removeEntry entry.url with
  | Except.ok _ => ([BgEvent.removed entry.url], Except.ok ())
  | Except.error e => ([], Except.error e)

/-- The mark-as-read loop of `processReadingListEntries`: each entry's
failure is caught (logged) and the loop continues with the next entry. -/
def markPhase (env : PassEnv) : List ReadingListEntry → List BgEvent
  | [] => []
  | entry :: rest => (markAsReadAndNotify env entry).1 ++ markPhase env rest

/-- The deletion loop of `processReadingListEntries`: each entry's failure
is caught (logged) and the loop continues with the next entry. -/
def deletePhase (env : PassEnv) : List ReadingListEntry → List BgEvent
  | [] => []
  | entry :: rest => (deleteEntry env entry).1 ++ deletePhase env rest

/-- From `src/backend/background.ts` (`getReadingListEntries`): a failed
`chrome.readingList.query` is caught and yields the empty list. -/
def queryEntries (env : PassEnv) : List ReadingListEntry :=
  match env.query with
  | Except.ok entries => entries
  | Except.error _ => []

/-- From `src/backend/background.ts` (`processReadingListEntries`): one
reconciliation pass — fetch, partition by the two eligibility predicates,
run the mark-as-read loop and then the deletion loop.  The pass returns
the list of performed external effects; it is a total function, modelling
that the source's outer `try`/`catch` never lets the pass throw. -/
def processReadingListEntries (env : PassEnv) : List BgEvent :=
  let entries := queryEntries env
  let entriesToMarkAsRead := entries.filter
    (fun entry => shouldMarkAsRead env.now entry env.settings.daysUntilRead)
  let entriesToDelete := entries.filter
    (fun entry => shouldDelete env.now entry env.settings.daysUntilDelete)
  markPhase env entriesToMarkAsRead ++ deletePhase env entriesToDelete

/-- Modelled from the spec: the eligibility predicate for deletion in the
current design, where `-1` is the documented "deletion disabled" sentinel
(`DELETION_DISABLED_VALUE` in the current `chrome_storage.ts`); the
background revision implementing the sentinel is absent from the
snapshot. -/
def shouldDeleteSpec (now : ℚ) (entry : ReadingListEntry)
    (daysUntilDelete : ℚ) : Bool :=
  if daysUntilDelete = -1 then false
  else shouldDelete now entry daysUntilDelete

/-- Modelled from the spec: the current revision of
`processReadingListEntries`, whose selection of read transitions is
truncated to the first `maxEntriesPerRun` eligible entries in fetch order
(the revision itself is absent from the snapshot; only its collaborators —
the `maxEntriesPerRun` setting and its tests — are present).  Deletions
are not capped. -/
def processReadingListEntriesCapped (env : PassEnv)
    (maxEntriesPerRun : Nat) : List BgEvent :=
  let entries := queryEntries env
  let entriesToMarkAsRead := (entries.filter
    (fun entry => shouldMarkAsRead env.now entry env.settings.daysUntilRead)).take
    maxEntriesPerRun
  let entriesToDelete := entries.filter
    (fun entry => shouldDeleteSpec env.now entry env.settings.daysUntilDelete)
  markPhase env entriesToMarkAsRead ++ deletePhase env entriesToDelete

/-! ## Helper lemmas -/

/-- If every attempt before `k` fails and attempt `k` succeeds (with
`k` within the remaining budget), the retry loop returns that success
after exactly `k` invocations. -/
lemma retryGo_ok {ε α : Type} (op : Nat → Except ε α) (b : Nat) (a : α) :
    ∀ (r attempt k : Nat) (last : Option ε), attempt ≤ k → k ≤ attempt + r →
      (∀ j, attempt ≤ j → j < k → (op j).isOk = false) →
      op k = Except.ok a →
      (retryGo op b attempt (r + 1) last).result = Except.ok a ∧
        (retryGo op b attempt (r + 1) last).calls = k := by
  intro r
  induction r with
  | zero =>
    intro attempt k last h1 h2 _ hk
    have hak : k = attempt := by omega
    subst hak
    simp [retryGo, hk]
  | succ r ih =>
    intro attempt k last h1 h2 hf hk
    by_cases hak : attempt = k
    · subst hak
      simp [retryGo, hk]
    · have hlt : attempt < k := lt_of_le_of_ne h1 hak
      have hopf : (op attempt).isOk = false := hf attempt le_rfl hlt
      obtain ⟨e, he⟩ : ∃ e, op attempt = Except.error e := by
        cases hoa : op attempt with
        | ok a' => rw [hoa] at hopf; simp [Except.isOk, Except.toBool] at hopf
        | error e => exact ⟨e, rfl⟩
      have hrec := ih (attempt + 1) k (some e) (by omega) (by omega)
        (fun j hj1 hj2 => hf j (by omega) hj2) hk
      simp only [retryGo, he, Nat.succ_ne_zero, if_false]
      exact hrec

/-- If attempts 1 and 2 fail and attempt 3 throws `e`, the retry executor
with the default 3-attempt budget rethrows `e`. -/
lemma retry3_error {ε α : Type} (op : Nat → Except ε α) (b : Nat) (e : ε)
    (h1 : (op 1).isOk = false) (h2 : (op 2).isOk = false)
    (h3 : op 3 = Except.error e) :
    (retryWithExponentialBackoff op 3 b).result = Except.error (some e) := by
  obtain ⟨e1, he1⟩ : ∃ x, op 1 = Except.error x := by
    cases ho : op 1 with
    | ok a => rw [ho] at h1; simp [Except.isOk, Except.toBool] at h1
    | error x => exact ⟨x, rfl⟩
  obtain ⟨e2, he2⟩ : ∃ x, op 2 = Except.error x := by
    cases ho : op 2 with
    | ok a => rw [ho] at h2; simp [Except.isOk, Except.toBool] at h2
    | error x => exact ⟨x, rfl⟩
  simp [retryWithExponentialBackoff, retryGo, he1, he2, h3]

/-! ## Claims -/

/-- C8: `shouldMarkAsRead(entry, daysUntilRead)` returns `false` when
`entry.hasBeenRead` is `true`, and otherwise returns `true` iff
`(now - entry.creationTime) / 86400000 >= daysUntilRead`, with exact
equality counting as eligible and no rounding of the day computation
(the comparison is over exact rationals). -/
theorem C8_shouldMarkAsRead_characterization (now : ℚ)
    (entry : ReadingListEntry) (d : ℚ) :
    shouldMarkAsRead now entry d = true ↔
      entry.hasBeenRead = false ∧ (now - entry.creationTime) / 86400000 ≥ d := by
  cases h : entry.hasBeenRead with
  | true => simp [shouldMarkAsRead, h]
  | false =>
    simp only [shouldMarkAsRead, h, Bool.false_eq_true, if_false,
      decide_eq_true_eq, true_and]
    norm_num

/-- C1 (counterexample): the claim states that `shouldDelete` returns
`false` when `daysUntilDelete` is the disabled sentinel `-1`; but the
source applies the threshold comparison unconditionally, so a read entry
whose `lastUpdateTime` equals `now` satisfies `0 >= -1` and is reported
eligible. -/
theorem C1_counterexample :
    shouldDelete 0 ⟨"u", "t", true, 0, 0⟩ (-1) = true := by
  norm_num [shouldDelete]

/-- C1 (amended): `shouldDelete(entry, daysUntilDelete)` returns `false`
when `entry.hasBeenRead` is `false`, and otherwise returns `true` iff
`(now - entry.lastUpdateTime) / 86400000 >= daysUntilDelete`, with exact
equality counting as eligible; there is no special case for the `-1`
sentinel, so with `daysUntilDelete = -1` any read entry not updated in
the future is eligible. -/
theorem C1_shouldDelete_amended (now : ℚ) (entry : ReadingListEntry)
    (d : ℚ) :
    shouldDelete now entry d = true ↔
      entry.hasBeenRead = true ∧ (now - entry.lastUpdateTime) / 86400000 ≥ d := by
  cases h : entry.hasBeenRead with
  | false => simp [shouldDelete, h]
  | true =>
    simp only [shouldDelete, h, Bool.not_true, Bool.false_eq_true, if_false,
      decide_eq_true_eq, true_and]
    norm_num

/-- C9: the success-message formatter splits the summary on newlines,
drops blank lines and uses the first three non-blank lines as the three
sections, so that `formatSlackMessage "T" "U" "M" "a.\nb.\nc."` is exactly
the three-section message and a single-line summary leaves sections 2 and
3 empty. -/
theorem C9_formatSlackMessage_examples :
    formatSlackMessage "T" "U" "M" "a.\nb.\nc." =
      "T\nU\n\nMによる要約\n\na.\n\nb.\n\nc." ∧
    formatSlackMessage "T" "U" "M" "only." =
      "T\nU\n\nMによる要約\n\nonly.\n\n\n\n" :=
  ⟨rfl, rfl⟩

/-- C3: the retry executor, on an operation failing at attempts 1, 2 and 3
with `maxAttempts = 3`, invokes the operation exactly 3 times, sleeps
`baseDelay` and then `2 * baseDelay`, and rethrows the third attempt's
error unchanged; and on an operation succeeding at attempt `k ≤
maxAttempts` (all earlier attempts failing) it returns that success after
exactly `k` invocations. -/
theorem C3_retry {ε α : Type} (op op2 : Nat → Except ε α) (b : Nat)
    (e1 e2 e3 : ε) (a : α) (k n : Nat)
    (h1 : op 1 = Except.error e1) (h2 : op 2 = Except.error e2)
    (h3 : op 3 = Except.error e3)
    (hk1 : 1 ≤ k) (hkn : k ≤ n)
    (hfail : ∀ j, 1 ≤ j → j < k → (op2 j).isOk = false)
    (hsucc : op2 k = Except.ok a) :
    retryWithExponentialBackoff op 3 b =
      ⟨Except.error (some e3), 3, [b, 2 * b]⟩ ∧
    (retryWithExponentialBackoff op2 n b).result = Except.ok a ∧
    (retryWithExponentialBackoff op2 n b).calls = k := by
  refine ⟨?_, ?_, ?_⟩
  · simp [retryWithExponentialBackoff, retryGo, h1, h2, h3, Nat.mul_comm]
  · have hn : n - 1 + 1 = n := by omega
    have h := retryGo_ok op2 b a (n - 1) 1 k none hk1 (by omega) hfail hsucc
    rw [hn] at h
    exact h.1
  · have hn : n - 1 + 1 = n := by omega
    have h := retryGo_ok op2 b a (n - 1) 1 k none hk1 (by omega) hfail hsucc
    rw [hn] at h
    exact h.2

/-- Always-failing operation used to witness C3. -/
def c3FailOp : Nat → Except Nat Nat := fun _ => Except.error 7

/-- Operation succeeding at attempt 2, used to witness C3. -/
def c3OkOp : Nat → Except Nat Nat :=
  fun k => if k = 2 then Except.ok 5 else Except.error 7

/-- Witness for C3 at a concrete operation pair. -/
theorem C3_retry_witness :
    retryWithExponentialBackoff c3FailOp 3 1000 =
      ⟨Except.error (some 7), 3, [1000, 2 * 1000]⟩ ∧
    (retryWithExponentialBackoff c3OkOp 3 1000).result = Except.ok 5 ∧
    (retryWithExponentialBackoff c3OkOp 3 1000).calls = 2 :=
  C3_retry c3FailOp c3OkOp 1000 7 7 7 5 2 3 rfl rfl rfl (by omega) (by omega)
    (fun j hj1 hj2 => by
      have hj : j = 1 := by omega
      subst hj
      rfl)
    rfl

/-- C6: `summarizeContent` never throws (it is a total function into the
result record, with every API exception and every empty completion folded
into the failure variant by `summarizeAttempt`); its `retryCount` is the
1-based attempt number at which the loop terminated, always between 1 and
3 — when the earlier attempts fail and attempt `k` succeeds, the result is
the success variant with `retryCount = k`, and on final failure
`retryCount = 3`; and when all three attempts fail the failure carries
the third attempt's error message verbatim. -/
theorem C6_summarizeContent (api : Nat → Except String (Option String)) :
    (∃ k, 1 ≤ k ∧ k ≤ 3 ∧ (summarizeContent api).retryCount = some k) ∧
    (∀ k s, 1 ≤ k → k ≤ 3 →
      (∀ j, 1 ≤ j → j < k → (summarizeAttempt (api j)).isOk = false) →
      summarizeAttempt (api k) = Except.ok s →
      summarizeContent api = ⟨true, some s, none, some k⟩) ∧
    ((summarizeContent api).success = false →
      (summarizeContent api).retryCount = some 3) ∧
    (∀ m1 m2 m3, summarizeAttempt (api 1) = Except.error m1 →
      summarizeAttempt (api 2) = Except.error m2 →
      summarizeAttempt (api 3) = Except.error m3 →
      summarizeContent api = ⟨false, none, some m3, some 3⟩) := by
  have hsucc : ∀ k s, 1 ≤ k → k ≤ 3 →
      (∀ j, 1 ≤ j → j < k → (summarizeAttempt (api j)).isOk = false) →
      summarizeAttempt (api k) = Except.ok s →
      summarizeContent api = ⟨true, some s, none, some k⟩ := by
    intro k s hk1 hk3 hf hk
    have hfe : ∀ j, 1 ≤ j → j < k →
        ∃ m, summarizeAttempt (api j) = Except.error m := by
      intro j hj1 hj2
      have hj := hf j hj1 hj2
      cases h : summarizeAttempt (api j) with
      | ok a => rw [h] at hj; simp [Except.isOk, Except.toBool] at hj
      | error m => exact ⟨m, rfl⟩
    interval_cases k
    · simp [summarizeContent, summarizeGo, hk]
    · obtain ⟨m1, hm1⟩ := hfe 1 (by omega) (by omega)
      simp [summarizeContent, summarizeGo, hm1, hk]
    · obtain ⟨m1, hm1⟩ := hfe 1 (by omega) (by omega)
      obtain ⟨m2, hm2⟩ := hfe 2 (by omega) (by omega)
      simp [summarizeContent, summarizeGo, hm1, hm2, hk]
  suffices hold : (∃ k, 1 ≤ k ∧ k ≤ 3 ∧
      (summarizeContent api).retryCount = some k) ∧
      ((summarizeContent api).success = false →
        (summarizeContent api).retryCount = some 3) ∧
      (∀ m1 m2 m3, summarizeAttempt (api 1) = Except.error m1 →
        summarizeAttempt (api 2) = Except.error m2 →
        summarizeAttempt (api 3) = Except.error m3 →
        summarizeContent api = ⟨false, none, some m3, some 3⟩) by
    exact ⟨hold.1, hsucc, hold.2.1, hold.2.2⟩
  cases h1 : summarizeAttempt (api 1) with
  | ok s1 =>
    refine ⟨⟨1, by omega, by omega, ?_⟩, ?_, ?_⟩
    · simp [summarizeContent, summarizeGo, h1]
    · simp [summarizeContent, summarizeGo, h1]
    · intro m1 m2 m3 hm1 hm2 hm3
      exact absurd hm1 (by simp)
  | error m1' =>
    cases h2 : summarizeAttempt (api 2) with
    | ok s2 =>
      refine ⟨⟨2, by omega, by omega, ?_⟩, ?_, ?_⟩
      · simp [summarizeContent, summarizeGo, h1, h2]
      · simp [summarizeContent, summarizeGo, h1, h2]
      · intro m1 m2 m3 hm1 hm2 hm3
        exact absurd hm2 (by simp)
    | error m2' =>
      cases h3 : summarizeAttempt (api 3) with
      | ok s3 =>
        refine ⟨⟨3, by omega, by omega, ?_⟩, ?_, ?_⟩
        · simp [summarizeContent, summarizeGo, h1, h2, h3]
        · simp [summarizeContent, summarizeGo, h1, h2, h3]
        · intro m1 m2 m3 hm1 hm2 hm3
          exact absurd hm3 (by simp)
      | error m3' =>
        refine ⟨⟨3, by omega, by omega, ?_⟩, ?_, ?_⟩
        · simp [summarizeContent, summarizeGo, h1, h2, h3]
        · intro _
          simp [summarizeContent, summarizeGo, h1, h2, h3]
        · intro m1 m2 m3 hm1 hm2 hm3
          cases hm3
          simp [summarizeContent, summarizeGo, h1, h2, h3]

/-- Completion API that throws on every attempt, used to witness C6. -/
def c6FailApi : Nat → Except String (Option String) :=
  fun _ => Except.error "boom"

/-- Completion API that throws on attempt 1 and succeeds on attempt 2,
used to witness C6. -/
def c6OkApi : Nat → Except String (Option String) :=
  fun k => if k = 2 then Except.ok (some " s2 ") else Except.error "boom"

/-- Witness for C6 at a concrete always-failing completion API and a
concrete API succeeding on attempt 2 (whose success is reported with
`retryCount = 2`). -/
theorem C6_summarizeContent_witness :
    summarizeContent c6FailApi = ⟨false, none, some "boom", some 3⟩ ∧
    summarizeContent c6OkApi = ⟨true, some "s2", none, some 2⟩ ∧
    (∃ k, 1 ≤ k ∧ k ≤ 3 ∧ (summarizeContent c6FailApi).retryCount = some k) :=
  ⟨(C6_summarizeContent c6FailApi).2.2.2 "boom" "boom" "boom" rfl rfl rfl,
    (C6_summarizeContent c6OkApi).2.1 2 "s2" (by omega) (by omega)
      (fun j hj1 hj2 => by
        have hj : j = 1 := by omega
        subst hj
        rfl)
      rfl,
    (C6_summarizeContent c6FailApi).1⟩

/-- C7: `extractContent` never throws (it is a total function into
`ExtractContentResult`, every final error being funnelled into the
failure variant), and when the provider responds with a non-success HTTP
status on the final attempt (the two earlier attempts having failed for
any reason), the resulting failure message embeds the numeric status code
and the reason phrase — for both providers. -/
theorem C7_extractContent_httpError (env : ExtractEnv) (url ep ep' : String)
    (fc : FirecrawlConfig) (tv : TavilyConfig) (s s' : Nat) (t t' : String)
    (bF : FirecrawlV2Response) (bT : TavilyExtractResponse)
    (hrf : env.resolveUrl "/v2/scrape" fc.baseUrl = Except.ok ep)
    (hf1 : (extractAttempt env url (ExtractContentConfig.firecrawl fc) 1).isOk = false)
    (hf2 : (extractAttempt env url (ExtractContentConfig.firecrawl fc) 2).isOk = false)
    (hf3 : env.firecrawlFetch 3 = FetchOutcome.response false s t bF)
    (hrt : env.resolveUrl "/extract" DEFAULT_TAVILY_BASE_URL = Except.ok ep')
    (ht1 : (extractAttempt env url (ExtractContentConfig.tavily tv) 1).isOk = false)
    (ht2 : (extractAttempt env url (ExtractContentConfig.tavily tv) 2).isOk = false)
    (ht3 : env.tavilyFetch 3 = FetchOutcome.response false s' t' bT) :
    extractContent env url (ExtractContentConfig.firecrawl fc) =
      ExtractContentResult.failure
        ("Firecrawl API error: " ++ toString s ++ " " ++ t) ∧
    extractContent env url (ExtractContentConfig.tavily tv) =
      ExtractContentResult.failure
        ("Tavily API error: " ++ toString s' ++ " " ++ t') := by
  constructor
  · have h3 : extractAttempt env url (ExtractContentConfig.firecrawl fc) 3 =
        Except.error ("Firecrawl API error: " ++ toString s ++ " " ++ t) := by
      simp [extractAttempt, extractWithFirecrawl, hrf, hf3]
    have hres := retry3_error
      (fun k => extractAttempt env url (ExtractContentConfig.firecrawl fc) k)
      1000 _ hf1 hf2 h3
    simp only [extractContent, hres]
    rfl
  · have h3 : extractAttempt env url (ExtractContentConfig.tavily tv) 3 =
        Except.error ("Tavily API error: " ++ toString s' ++ " " ++ t') := by
      simp [extractAttempt, extractWithTavily, hrt, ht3]
    have hres := retry3_error
      (fun k => extractAttempt env url (ExtractContentConfig.tavily tv) k)
      1000 _ ht1 ht2 h3
    simp only [extractContent, hres]
    rfl

/-- Extractor environment whose providers answer every attempt with a
non-success HTTP status, used to witness C7. -/
def c7Env : ExtractEnv where
  resolveUrl := fun _ _ => Except.ok "endpoint"
  hostname := fun _ => Except.ok "example.com"
  firecrawlFetch := fun _ =>
    FetchOutcome.response false 429 "Too Many Requests" ⟨none⟩
  tavilyFetch := fun _ =>
    FetchOutcome.response false 500 "Internal Server Error" ⟨none, none⟩

/-- Witness for C7 at a concrete environment. -/
theorem C7_extractContent_httpError_witness :
    extractContent c7Env "https://example.com"
        (ExtractContentConfig.firecrawl ⟨"fc-key", "https://api.firecrawl.dev"⟩) =
      ExtractContentResult.failure
        ("Firecrawl API error: " ++ toString 429 ++ " " ++ "Too Many Requests") ∧
    extractContent c7Env "https://example.com"
        (ExtractContentConfig.tavily ⟨"tv-key"⟩) =
      ExtractContentResult.failure
        ("Tavily API error: " ++ toString 500 ++ " " ++ "Internal Server Error") :=
  C7_extractContent_httpError c7Env "https://example.com" "endpoint" "endpoint"
    ⟨"fc-key", "https://api.firecrawl.dev"⟩ ⟨"tv-key"⟩ 429 500
    "Too Many Requests" "Internal Server Error" ⟨none⟩ ⟨none, none⟩
    rfl rfl rfl rfl rfl rfl rfl rfl

/-- Extractor environment in which the WHATWG `URL` constructor rejects
the configured base URL, used for C4. -/
def c4Env : ExtractEnv where
  resolveUrl := fun _ _ => Except.error "Invalid URL"
  hostname := fun _ => Except.error "Invalid URL"
  firecrawlFetch := fun _ => FetchOutcome.reject "unreached"
  tavilyFetch := fun _ => FetchOutcome.reject "unreached"

/-- C4 (counterexample): the claim states that with a malformed base URL
`extractContent` fails after a single attempt and the failure is not
retried by the backoff loop; but the source constructs the endpoint URL
inside the retried operation, so the invalid-URL error is thrown on every
attempt and the backoff loop performs all 3 invocations with 2 sleeps. -/
theorem C4_counterexample :
    (retryWithExponentialBackoff
      (fun k => extractAttempt c4Env "https://example.com"
        (ExtractContentConfig.firecrawl ⟨"fc-key", "::invalid-url::"⟩) k)
      3 1000).calls = 3 ∧
    (retryWithExponentialBackoff
      (fun k => extractAttempt c4Env "https://example.com"
        (ExtractContentConfig.firecrawl ⟨"fc-key", "::invalid-url::"⟩) k)
      3 1000).delays = [1000, 2000] :=
  ⟨rfl, rfl⟩

/-- C4 (amended): when the Firecrawl base URL is malformed,
`extractContent` fails with the invalid-URL error — the error is thrown
afresh inside each of the 3 attempts of the backoff loop (so the failure
is retried, not terminal after a single attempt), the surfaced failure
carries the URL constructor's error message, and no default base URL is
substituted: the result is independent of what any fetch would return. -/
theorem C4_extractContent_invalidBaseUrl (env : ExtractEnv) (url : String)
    (fc : FirecrawlConfig) (m : String)
    (hr : env.resolveUrl "/v2/scrape" fc.baseUrl = Except.error m) :
    extractContent env url (ExtractContentConfig.firecrawl fc) =
      ExtractContentResult.failure m ∧
    (retryWithExponentialBackoff
      (fun k => extractAttempt env url (ExtractContentConfig.firecrawl fc) k)
      3 1000).calls = 3 ∧
    (∀ f g, extractContent
        { env with firecrawlFetch := f, tavilyFetch := g } url
        (ExtractContentConfig.firecrawl fc) =
      ExtractContentResult.failure m) := by
  have ha : ∀ k, extractAttempt env url (ExtractContentConfig.firecrawl fc) k =
      Except.error m := by
    intro k
    simp [extractAttempt, extractWithFirecrawl, hr]
  refine ⟨?_, ?_, ?_⟩
  · simp [extractContent, retryWithExponentialBackoff, retryGo, ha]
  · simp [retryWithExponentialBackoff, retryGo, ha]
  · intro f g
    have ha' : ∀ k, extractAttempt
        { env with firecrawlFetch := f, tavilyFetch := g } url
        (ExtractContentConfig.firecrawl fc) k = Except.error m := by
      intro k
      simp [extractAttempt, extractWithFirecrawl, hr]
    simp [extractContent, retryWithExponentialBackoff, retryGo, ha']

/-- Witness for the amended C4 at a concrete environment. -/
theorem C4_extractContent_invalidBaseUrl_witness :
    extractContent c4Env "https://example.com"
        (ExtractContentConfig.firecrawl ⟨"fc-key", "::invalid-url::"⟩) =
      ExtractContentResult.failure "Invalid URL" :=
  (C4_extractContent_invalidBaseUrl c4Env "https://example.com"
    ⟨"fc-key", "::invalid-url::"⟩ "Invalid URL" rfl).1

/-- Every effect of `postToSlack` is a webhook post. -/
lemma postToSlack_posts (env : PassEnv) (w m : String) :
    ∀ ev ∈ (postToSlack env w m).1, ∃ w' m', ev = BgEvent.posted w' m' := by
  intro ev hev
  unfold postToSlack at hev
  cases h : env.post w m with
  | ok u => rw [h] at hev; simp at hev; exact ⟨w, m, hev⟩
  | error e => rw [h] at hev; simp at hev

/-- Every effect of `notifyExtractionError` is a webhook post. -/
lemma notifyExtractionError_posts (env : PassEnv) (entry : ReadingListEntry)
    (err : Option String) :
    ∀ ev ∈ (notifyExtractionError env entry err).1,
      ∃ w' m', ev = BgEvent.posted w' m' := by
  intro ev hev
  unfold notifyExtractionError at hev
  split at hev
  · simp at hev
  · exact postToSlack_posts env _ _ ev hev

/-- Every effect of `processSummarization` is a webhook post. -/
lemma processSummarization_posts (env : PassEnv) (entry : ReadingListEntry)
    (content : String) :
    ∀ ev ∈ (processSummarization env entry content).1,
      ∃ w' m', ev = BgEvent.posted w' m' := by
  intro ev hev
  unfold processSummarization at hev
  split at hev
  · simp at hev
  · exact postToSlack_posts env _ _ ev hev

/-- Every effect of `processContentExtraction` is a webhook post: the
extraction pipeline performs no reading-list mutation. -/
lemma processContentExtraction_posts (env : PassEnv)
    (entry : ReadingListEntry) :
    ∀ ev ∈ (processContentExtraction env entry).1,
      ∃ w' m', ev = BgEvent.posted w' m' := by
  intro ev hev
  unfold processContentExtraction at hev
  split at hev
  · simp at hev
  · dsimp only at hev
    split at hev
    · exact notifyExtractionError_posts env entry _ ev hev
    · exact processSummarization_posts env entry _ ev hev

/-- C5: a reconciliation pass never raises to its caller (it is a total
function into its effect list); a failed entry-list fetch yields an empty
entry set so the pass performs no effect; an exception while marking one
entry read, or while deleting one entry, is caught per entry and
processing continues with the next entry in that loop. -/
theorem C5_pass_isolation (env : PassEnv) (msg : String)
    (a b : ReadingListEntry) :
    (env.query = Except.error msg → processReadingListEntries env = []) ∧
    ((markAsReadAndNotify env a).2 = Except.error msg →
      markPhase env [a, b] =
        (markAsReadAndNotify env a).1 ++ (markAsReadAndNotify env b).1) ∧
    (env.removeEntry a.url = Except.error msg →
      deletePhase env [a, b] = (deleteEntry env b).1) := by
  refine ⟨?_, ?_, ?_⟩
  · intro h
    simp [processReadingListEntries, queryEntries, h, markPhase, deletePhase]
  · intro _
    simp [markPhase]
  · intro h
    simp [deletePhase, deleteEntry, h]

/-- Settings with no optional field configured, used by concrete
environments below. -/
def bareSettings : Settings :=
  ⟨30, 60, none, none, none, none, none, none⟩

/-- Pass environment whose entry-list fetch fails, used to witness C5. -/
def c5EnvA : PassEnv where
  now := 0
  settings := bareSettings
  query := Except.error "API error"
  updateEntry := fun _ => Except.ok ()
  removeEntry := fun _ => Except.ok ()
  extract := fun _ => ⟨false, none, none⟩
  summarize := fun _ => ⟨false, none, none, none⟩
  post := fun _ _ => Except.ok ()

/-- Pass environment whose removal mutator fails on `"u1"` only, used to
witness C5. -/
def c5EnvB : PassEnv where
  now := 0
  settings := bareSettings
  query := Except.ok []
  updateEntry := fun _ => Except.ok ()
  removeEntry := fun u => if u = "u1" then Except.error "boom" else Except.ok ()
  extract := fun _ => ⟨false, none, none⟩
  summarize := fun _ => ⟨false, none, none, none⟩
  post := fun _ _ => Except.ok ()

/-- Witness for C5 at concrete environments: a failed fetch makes the pass
a no-op, and a failed first deletion still lets the second entry be
deleted. -/
theorem C5_pass_isolation_witness :
    processReadingListEntries c5EnvA = [] ∧
    deletePhase c5EnvB [⟨"u1", "t1", true, 0, 0⟩, ⟨"u2", "t2", true, 0, 0⟩] =
      [BgEvent.removed "u2"] := by
  constructor
  · exact (C5_pass_isolation c5EnvA "API error" ⟨"u1", "t1", true, 0, 0⟩
      ⟨"u2", "t2", true, 0, 0⟩).1 rfl
  · have h := (C5_pass_isolation c5EnvB "boom" ⟨"u1", "t1", true, 0, 0⟩
      ⟨"u2", "t2", true, 0, 0⟩).2.2 rfl
    rw [h]
    rfl

/-- C10: during a read transition the entry is marked read before any
extraction, summarization or notification (the mark-read event heads the
effect list and everything after it is a webhook post); the single
mark-read update is the only reading-list mutation of the transition (no
removal, no second update); and when the mark-read mutation itself fails
nothing at all is performed. -/
theorem C10_markAsReadAndNotify_frame (env : PassEnv)
    (entry : ReadingListEntry) :
    (env.updateEntry entry.url = Except.ok () →
      ∃ rest, (markAsReadAndNotify env entry).1 =
          BgEvent.markedRead entry.url :: rest ∧
        ∀ ev ∈ rest, ∃ w m, ev = BgEvent.posted w m) ∧
    (∀ msg, env.updateEntry entry.url = Except.error msg →
      (markAsReadAndNotify env entry).1 = []) := by
  constructor
  · intro h
    refine ⟨(processContentExtraction env entry).1, ?_,
      processContentExtraction_posts env entry⟩
    simp [markAsReadAndNotify, h]
  · intro msg h
    simp [markAsReadAndNotify, h]

/-- Pass environment with a fully configured pipeline, used to witness
C10: the mark-read mutation succeeds, extraction succeeds, summarization
succeeds and the summary is posted. -/
def c10Env : PassEnv where
  now := 0
  settings := ⟨30, 60, some "https://llm.example/v1", some "sk-key",
    some "gpt-test", some "https://hooks.slack.com/T", some "fc-key", none⟩
  query := Except.ok []
  updateEntry := fun _ => Except.ok ()
  removeEntry := fun _ => Except.ok ()
  extract := fun _ => ⟨true, some "body", none⟩
  summarize := fun _ => ⟨true, some "s1\ns2\ns3", none, some 1⟩
  post := fun _ _ => Except.ok ()

/-- Witness for C10 at a concrete environment. -/
theorem C10_markAsReadAndNotify_frame_witness :
    ∃ rest, (markAsReadAndNotify c10Env ⟨"u10", "t10", false, 0, 0⟩).1 =
        BgEvent.markedRead "u10" :: rest ∧
      ∀ ev ∈ rest, ∃ w m, ev = BgEvent.posted w m :=
  (C10_markAsReadAndNotify_frame c10Env ⟨"u10", "t10", false, 0, 0⟩).1 rfl

/-- Under a never-failing mutator and no extraction key, one read
transition emits exactly the mark-read event. -/
lemma markAsReadAndNotify_bare (env : PassEnv)
    (hupd : ∀ u, env.updateEntry u = Except.ok ())
    (hkey : strTruthy env.settings.firecrawlApiKey = false)
    (entry : ReadingListEntry) :
    markAsReadAndNotify env entry =
      ([BgEvent.markedRead entry.url], Except.ok ()) := by
  simp [markAsReadAndNotify, hupd, processContentExtraction, hkey]

/-- Under a never-failing mutator and no extraction key, the mark-as-read
loop emits exactly one mark-read event per selected entry, in order. -/
lemma markPhase_bare (env : PassEnv)
    (hupd : ∀ u, env.updateEntry u = Except.ok ())
    (hkey : strTruthy env.settings.firecrawlApiKey = false) :
    ∀ l, markPhase env l = l.map (fun e => BgEvent.markedRead e.url) := by
  intro l
  induction l with
  | nil => rfl
  | cons e rest ih =>
    rw [markPhase, markAsReadAndNotify_bare env hupd hkey e, ih]
    rfl

/-- An unread entry is never eligible for deletion. -/
lemma shouldDeleteSpec_unread (now : ℚ) (entry : ReadingListEntry)
    (d : ℚ) (h : entry.hasBeenRead = false) :
    shouldDeleteSpec now entry d = false := by
  unfold shouldDeleteSpec shouldDelete
  split
  · rfl
  · simp [h]

/-- C2 (spec-modelled): in a reconciliation pass of the current design,
the set of entries driven through the read transition is the eligible
entries truncated to the first `maxEntriesPerRun` in fetch order — under a
never-failing mark-read mutator, no extraction key (so a transition's only
effect is its mark-read event) and an all-unread entry list (so the
deletion loop is empty), the pass emits exactly one mark-read event per
entry of that truncated selection, in fetch order, and touches no other
entry. -/
theorem C2_capped_selection (env : PassEnv) (maxEntriesPerRun : Nat)
    (hupd : ∀ u, env.updateEntry u = Except.ok ())
    (hkey : strTruthy env.settings.firecrawlApiKey = false)
    (hunread : ∀ e ∈ queryEntries env, e.hasBeenRead = false) :
    processReadingListEntriesCapped env maxEntriesPerRun =
      (((queryEntries env).filter
        (fun e => shouldMarkAsRead env.now e env.settings.daysUntilRead)).take
        maxEntriesPerRun).map (fun e => BgEvent.markedRead e.url) := by
  simp only [processReadingListEntriesCapped]
  have hdel : (queryEntries env).filter
      (fun e => shouldDeleteSpec env.now e env.settings.daysUntilDelete) = [] := by
    rw [List.filter_eq_nil_iff]
    intro e he
    rw [shouldDeleteSpec_unread env.now e _ (hunread e he)]
    simp
  rw [hdel, markPhase_bare env hupd hkey]
  simp [deletePhase]

/-- Pass environment with two eligible unread entries and no extraction
key, used to witness C2. -/
def c2Env : PassEnv where
  now := 86400000 * 40
  settings := ⟨30, -1, none, none, none, none, none, none⟩
  query := Except.ok [⟨"u1", "t1", false, 0, 0⟩, ⟨"u2", "t2", false, 0, 0⟩]
  updateEntry := fun _ => Except.ok ()
  removeEntry := fun _ => Except.ok ()
  extract := fun _ => ⟨false, none, none⟩
  summarize := fun _ => ⟨false, none, none, none⟩
  post := fun _ _ => Except.ok ()

/-- Witness for C2: with `maxEntriesPerRun = 1` and two eligible unread
entries, exactly one entry is transitioned to read in the pass and the
other is left untouched. -/
theorem C2_capped_selection_witness :
    processReadingListEntriesCapped c2Env 1 = [BgEvent.markedRead "u1"] := by
  have h := C2_capped_selection c2Env 1 (fun u => rfl) rfl
    (by intro e he; simp [queryEntries, c2Env] at he; rcases he with he | he <;>
      rw [he])
  rw [h]
  have h1 : shouldMarkAsRead (86400000 * 40) ⟨"u1", "t1", false, 0, 0⟩ 30 =
      true := by
    norm_num [shouldMarkAsRead]
  simp [queryEntries, c2Env, List.filter, h1]

end RLAS
